import Mathlib

/-!
A shallow embedding of `examples/websocket/public/order_book.py`: the
`OrderBook` replica (update / verify / is_verifiable / clear), the float
formatting used by the checksum canonicalization, the CRC-32 checksum, and
the module-level event handlers (`on_t_book_snapshot`, `on_t_book_update`,
`on_checksum`, `_reset_connection`) together with their global state.

Python floats are modelled by their shortest decimal representation, which
is exactly what `repr` prints and hence what the formatting code consumes:
a sign, a nonempty list of mantissa digits `d1.d2...dk`, and a decimal
exponent `e`, denoting `±d1.d2...dk × 10^e`; `log10`-rounding noise at
decade boundaries is abstracted away (`_find_exp` returns the decimal
exponent exactly, and raises a math domain error only at zero).
Python strings are modelled as `List Char` (all characters involved are
ASCII, so UTF-8 bytes are the character codes).
-/

/-- A Python float, abstracted by the shortest decimal representation that
`repr` prints: `zero`, or a sign, mantissa digits and a decimal exponent,
denoting `±d1.d2...dk × 10^e`. -/
inductive PyFloat where
  | zero : PyFloat
  | nz (neg : Bool) (digits : List Nat) (exp : Int) : PyFloat
  deriving DecidableEq, Repr

/-- Well-formedness of the shortest-representation encoding: the mantissa is
nonempty, all digits are below 10, the leading and trailing digits are
nonzero, and there are at most 17 digits (double-precision shortest repr). -/
def PyFloat.Valid : PyFloat → Prop
  | .zero => True
  | .nz _ ds _ =>
      ds ≠ [] ∧ ds.head? ≠ some 0 ∧ ds.getLast? ≠ some 0 ∧
      (∀ d ∈ ds, d < 10) ∧ ds.length ≤ 17

instance (v : PyFloat) : Decidable v.Valid := by
  cases v <;> simp only [PyFloat.Valid] <;> infer_instance

/-- The natural number denoted by a digit list (most significant first). -/
def digitsVal (ds : List Nat) : Nat := ds.foldl (fun acc d => 10 * acc + d) 0

/-- The signed integer mantissa of a modelled float. -/
def PyFloat.num : PyFloat → Int
  | .zero => 0
  | .nz neg ds _ => (if neg then -1 else 1) * (digitsVal ds : Int)

/-- The power of ten scaling the integer mantissa: the value is
`num * 10 ^ pexp`. -/
def PyFloat.pexp : PyFloat → Int
  | .zero => 0
  | .nz _ ds e => e - ((ds.length - 1 : Nat) : Int)

/-- Exact numeric comparison of two modelled floats (Python `<` on floats):
rescale both mantissas to the smaller power of ten and compare integers. -/
def PyFloat.lt (a b : PyFloat) : Bool :=
  let m := min a.pexp b.pexp
  a.num * (10 : Int) ^ (a.pexp - m).toNat < b.num * (10 : Int) ^ (b.pexp - m).toNat

/-- Python `value > 0` for a modelled float. -/
def PyFloat.gtZero (a : PyFloat) : Bool := PyFloat.lt .zero a

/-- The character for a decimal digit. -/
def digitChar (d : Nat) : Char := Char.ofNat (48 + d)

/-- Base-10 digits of a positive number, most significant first, with an
explicit fuel argument (structural recursion so that terms reduce). -/
def natDigitsAux : Nat → Nat → List Nat
  | _, 0 => []
  | 0, _ + 1 => []
  | fuel + 1, n + 1 => natDigitsAux fuel ((n + 1) / 10) ++ [(n + 1) % 10]

/-- Base-10 digits of `n` (empty for 0). -/
def natDigits (n : Nat) : List Nat := natDigitsAux n n

/-- Python's exponent field of a scientific `repr`: padded with a leading
zero to at least two digits (`07`, `16`, `100`). -/
def pyExpPad (a : Nat) : List Char :=
  if a < 10 then ['0', digitChar a] else (natDigits a).map digitChar

/-- The mantissa of a scientific `repr`: `d` for a one-digit mantissa
(`1e-07`, never `1.0e-07`), otherwise `d1.d2...dk`, with a sign. -/
def sciMantissa (neg : Bool) (ds : List Nat) : List Char :=
  let m : List Char :=
    match ds with
    | [] => []
    | [d] => [digitChar d]
    | d :: rest => digitChar d :: '.' :: rest.map digitChar
  if neg then '-' :: m else m

/-- Models `format(Decimal(repr(value)), "f")`: the exact value printed in
plain fixed-point notation. `Decimal` keeps `repr`'s last decimal place, so
an integral value carries a trailing `.0` exactly when `repr` itself was in
fixed notation (decimal exponent below 16); from 16 on, `repr` is
scientific with no trailing fractional zero, and no decimal point is
printed. -/
def decimalFixed : PyFloat → List Char
  | .zero => ['0', '.', '0']
  | .nz neg ds e =>
    let dcs := ds.map digitChar
    let body :=
      if e < 0 then '0' :: '.' :: (List.replicate ((-e).toNat - 1) '0' ++ dcs)
      else if e.toNat + 1 < ds.length then
        dcs.take (e.toNat + 1) ++ '.' :: dcs.drop (e.toNat + 1)
      else if e < 16 then (dcs ++ List.replicate (e.toNat + 1 - ds.length) '0') ++ ['.', '0']
      else dcs ++ List.replicate (e.toNat + 1 - ds.length) '0'
    if neg then '-' :: body else body

/-- Python `str`/`repr` of a float: fixed-point while the decimal exponent
lies in `[-4, 16)`, otherwise scientific with a signed exponent padded to at
least two digits (`1e-07`, `1e+16`, `1e-100`). -/
def pyStr : PyFloat → List Char
  | .zero => ['0', '.', '0']
  | .nz neg ds e =>
    if -4 ≤ e ∧ e < 16 then decimalFixed (.nz neg ds e)
    else sciMantissa neg ds ++ 'e' :: (if e < 0 then '-' else '+') :: pyExpPad e.natAbs

/-- The source's `str(value).replace("e-0", "e-")` specialised to its
constant arguments: every non-overlapping occurrence of `e-0` is replaced
left to right by `e-`, scanning resuming after the replaced occurrence. -/
def replaceE0 : List Char → List Char
  | [] => []
  | [c] => [c]
  | [c, c2] => [c, c2]
  | c :: c2 :: c3 :: rest =>
    if c = 'e' ∧ c2 = '-' ∧ c3 = '0' then 'e' :: '-' :: replaceE0 rest
    else c :: replaceE0 (c2 :: c3 :: rest)

/-- The source's `_find_exp`: `floor(log10(abs(number)))`, which is the
decimal exponent of the shortest representation; `log10` raises a
ValueError (math domain error) at zero, modelled as `none`. -/
def find_exp : PyFloat → Option Int
  | .zero => none
  | .nz _ _ e => some e

/-- The source's `_format_float`: fixed-point via `Decimal` when the decimal
exponent is at least `-6`, otherwise `str(value).replace("e-0", "e-")`;
the domain error at zero propagates as `none`. -/
def format_float (v : PyFloat) : Option (List Char) :=
  match find_exp v with
  | none => none
  | some e => if -6 ≤ e then some (decimalFixed v) else some (replaceE0 (pyStr v))

/-- One bit step of the reflected CRC-32 (zip/gzip polynomial 0xEDB88320). -/
def crc32Step (crc : Nat) : Nat :=
  if crc % 2 = 1 then (crc / 2) ^^^ 0xEDB88320 else crc / 2

/-- Fold one byte into a running CRC-32. -/
def crc32Byte (crc b : Nat) : Nat := crc32Step^[8] (crc ^^^ b)

/-- The byte loop of the CRC: zlib keeps the register in 32 bits, so the
register is renormalised below `2^32` at every byte boundary (the bound
always holds — `crc32Byte` maps 32-bit registers to 32-bit registers — so
the else branch never fires; checking it also keeps kernel evaluation of
concrete checksums shallow). -/
def crc32Fold (crc : Nat) : List Nat → Nat
  | [] => crc
  | b :: bs =>
    if crc32Byte crc b < 4294967296 then crc32Fold (crc32Byte crc b) bs
    else crc32Fold (crc32Byte crc b % 4294967296) bs

/-- `zlib.crc32` of a byte sequence (initial value 0). -/
def crc32 (bytes : List Nat) : Nat := crc32Fold 0xFFFFFFFF bytes ^^^ 0xFFFFFFFF

section OrderedDict

variable {α β : Type} [DecidableEq α]

/-- Python `dict` assignment `d[k] = v`: replace the value in place when the
key is present (insertion order preserved), otherwise append. -/
def odInsert (k : α) (v : β) : List (α × β) → List (α × β)
  | [] => [(k, v)]
  | (k2, v2) :: rest =>
      if k2 = k then (k2, v) :: rest else (k2, v2) :: odInsert k v rest

/-- Python `del d[k]` (guarded by `k in d` in the source): drop the first
binding of `k`. -/
def odErase (k : α) : List (α × β) → List (α × β)
  | [] => []
  | (k2, v2) :: rest => if k2 = k then rest else (k2, v2) :: odErase k rest

/-- Python `d[k]` / `k in d`. -/
def odLookup (k : α) : List (α × β) → Option β
  | [] => none
  | (k2, v2) :: rest => if k2 = k then some v2 else odLookup k rest

/-- The key sequence of an insertion-ordered dict. -/
def odKeys (l : List (α × β)) : List α := l.map Prod.fst

end OrderedDict

/-- One stored level, the dict `{"p": price, "c": count, "a": amount}`. -/
structure BookEntry where
  p : PyFloat
  c : Int
  a : PyFloat
  deriving DecidableEq, Repr

/-- One incoming level (the `TradingPairBook` payload fields the handler
reads): price, count, amount. -/
structure TradingPairBook where
  price : PyFloat
  count : Int
  amount : PyFloat
  deriving DecidableEq, Repr

/-- `OrderBook.__order_book`: two insertion-ordered price-to-level maps. -/
structure OrderBook where
  bids : List (PyFloat × BookEntry)
  asks : List (PyFloat × BookEntry)
  deriving DecidableEq, Repr

/-- The mutation `OrderBook.update` applies to the selected side: `count > 0`
upserts the level keyed by price, `count == 0` removes the price when
present, any other count leaves the side untouched. -/
def sideApply (d : TradingPairBook) (side : List (PyFloat × BookEntry)) :
    List (PyFloat × BookEntry) :=
  if 0 < d.count then odInsert d.price ⟨d.price, d.count, d.amount⟩ side
  else if d.count = 0 then odErase d.price side
  else side

/-- `OrderBook.update`: `kind = "bids" if amount > 0 else "asks"`, then the
count-directed upsert/remove on that side. -/
def OrderBook.update (bk : OrderBook) (d : TradingPairBook) : OrderBook :=
  if d.amount.gtZero then { bk with bids := sideApply d bk.bids }
  else { bk with asks := sideApply d bk.asks }

/-- Stable insertion step: place `x` before the first element `y` with
`le x y`. -/
def insertSorted {α : Type} (le : α → α → Bool) (x : α) : List α → List α
  | [] => [x]
  | y :: ys => if le x y then x :: y :: ys else y :: insertSorted le x ys

/-- Stable sort modelling Python `sorted` (with `le` the non-strict order of
the sort key; on the unique-keyed lists used here any correct sort computes
the same list). -/
def insertionSort {α : Type} (le : α → α → Bool) : List α → List α
  | [] => []
  | x :: xs => insertSorted le x (insertionSort le xs)

/-- The source's `bids`: the stored `(p, c, a)` triples sorted by
`key=lambda data: -data[0]`, i.e. descending by price. -/
def OrderBook.sortedBids (bk : OrderBook) : List (PyFloat × Int × PyFloat) :=
  insertionSort (fun x y => !(PyFloat.lt x.1 y.1))
    (bk.bids.map fun kv => (kv.2.p, kv.2.c, kv.2.a))

/-- The source's `asks`: the stored `(p, c, a)` triples sorted by
`key=lambda data: data[0]`, i.e. ascending by price. -/
def OrderBook.sortedAsks (bk : OrderBook) : List (PyFloat × Int × PyFloat) :=
  insertionSort (fun x y => !(PyFloat.lt y.1 x.1))
    (bk.asks.map fun kv => (kv.2.p, kv.2.c, kv.2.a))

/-- Default triple for out-of-range indexing (never read: the 25-element
loop is guarded by the length assertion). -/
def pfTriple0 : PyFloat × Int × PyFloat := (.zero, 0, .zero)

/-- The 100 checksum inputs of `OrderBook.verify`: for `_i in range(25)`,
bid price, bid amount, ask price, ask amount. -/
def OrderBook.checksumValues (bk : OrderBook) : List PyFloat :=
  (List.range 25).flatMap fun i =>
    [(bk.sortedBids.getD i pfTriple0).1, (bk.sortedBids.getD i pfTriple0).2.2,
     (bk.sortedAsks.getD i pfTriple0).1, (bk.sortedAsks.getD i pfTriple0).2.2]

/-- The joined formatting of the 100 values, as the generator consumed by
`":".join(...)`: formats values left to right, the `ValueError` of the first
zero aborting the whole computation. -/
def mapFormat : List PyFloat → Option (List (List Char))
  | [] => some []
  | v :: vs =>
    match format_float v with
    | none => none
    | some s =>
      match mapFormat vs with
      | none => none
      | some ss => some (s :: ss)

/-- Python exception kinds raised by the embedded code: the explicit
`AssertionError` in `verify`, the `ValueError` of `log10(0)`, and the
`KeyError` of indexing a journal snapshot entry with `"p"`. -/
inductive PyErr where
  | assertionError
  | valueError
  | keyError
  deriving DecidableEq, Repr

instance {e a : Type} [DecidableEq e] [DecidableEq a] : DecidableEq (Except e a)
  | .error x, .error y => decidable_of_iff (x = y) (by simp)
  | .ok x, .ok y => decidable_of_iff (x = y) (by simp)
  | .error _, .ok _ => isFalse fun h => Except.noConfusion h
  | .ok _, .error _ => isFalse fun h => Except.noConfusion h

/-- `OrderBook.verify`: sort both sides, assert at least 25 levels each
(AssertionError otherwise), format the 100 canonical values (`ValueError`
if one is zero), join them with `:` and compare the CRC-32 of the UTF-8
bytes of the joined string with the declared checksum. -/
def OrderBook.verify (bk : OrderBook) (checksum : Nat) : Except PyErr Bool :=
  if bk.sortedBids.length < 25 ∨ bk.sortedAsks.length < 25 then .error .assertionError
  else
    match mapFormat bk.checksumValues with
    | none => .error .valueError
    | some ss => .ok (crc32 ((List.intercalate [':'] ss).map Char.toNat) == checksum)

/-- `OrderBook.is_verifiable`: both sides hold at least 25 levels. -/
def OrderBook.is_verifiable (bk : OrderBook) : Bool :=
  25 ≤ bk.bids.length && 25 ≤ bk.asks.length

/-- The empty book; `OrderBook.clear` resets the store to it, and the store
is created equal to it. -/
def OrderBook.emptyBook : OrderBook := ⟨[], []⟩

/-- The checksum canonicalization as the spec words it: the top 25 bids
(descending) zipped with the top 25 asks (ascending), each of the 25 pairs
contributing `(bidPrice, bidAmount, askPrice, askAmount)`, the flat 100
values formatted and joined with `:`; undefined when a value is zero. -/
def specChecksumString (bk : OrderBook) : Option (List Char) :=
  let pairs := (bk.sortedBids.take 25).zip (bk.sortedAsks.take 25)
  (mapFormat (pairs.flatMap fun ba => [ba.1.1, ba.1.2.2, ba.2.1, ba.2.2.2])).map
    (List.intercalate [':'])

/-- One value of `timestamp_orderbook_update_map`: either a deep copy of the
full replica dict (stored at the snapshot timestamp and at the sentinel key
`-1`) or the three parallel per-field update lists. -/
inductive JEntry where
  | bookCopy (b : OrderBook)
  | upd (p : List PyFloat) (a : List PyFloat) (c : List Int)
  deriving DecidableEq, Repr

/-- The channel parameters of a book subscription (everything in the
subscription dict except `sub_id`). -/
structure SubParams where
  channel : List Char
  symbol : List Char
  prec : List Char
  len : List Char
  deriving DecidableEq, Repr

/-- A resolved subscription as delivered with each event: its transport
identity plus the channel parameters. -/
structure Subscription where
  sub_id : Int
  params : SubParams
  deriving DecidableEq, Repr

/-- The module-level mutable globals of the recording script. -/
structure SysState where
  order_book : OrderBook
  timestamp_orderbook_update_map : List (Int × JEntry)
  last_checksum_timestamp : Int
  starting_timestamp : Int
  ending_timestamp : Int
  are_new_messages_to_drop : Bool
  deriving DecidableEq, Repr

/-- `SECONDS_RECORDING_DURATION`. -/
def SECONDS_RECORDING_DURATION : Int := 3300

/-- Outward effects of the handlers: the transport calls issued by
`_reset_connection` and the durable-storage write of
`save_orderbook_messages_to_file` (whose filename
`data/data_{timestamp}[_interrupted].json` is modelled by the timestamp it
is derived from plus the interrupted flag, and whose payload is the
serialized journal map). -/
inductive EAction where
  | unsubscribe (sub_id : Int)
  | subscribe (params : SubParams)
  | saveFile (timestamp : Int) (isInterrupted : Bool) (contents : List (Int × JEntry))
  deriving DecidableEq, Repr

/-- `save_orderbook_messages_to_file(timestamp, is_interrupted)`: dump the
journal map to `data/data_{timestamp}.json`, or
`data/data_{timestamp}_interrupted.json` when interrupted. -/
def save_orderbook_messages_to_file (timestamp : Int) (is_interrupted : Bool)
    (journal : List (Int × JEntry)) : EAction :=
  .saveFile timestamp is_interrupted journal

/-- The primitive state/effect steps of `_reset_connection`, in a form that
lets every intermediate point of the procedure be inspected. -/
inductive RStep where
  | setDropFlag
  | clearJournal
  | doUnsubscribe
  | doSubscribe
  | clearBook
  deriving DecidableEq, Repr

/-- The effect of one `_reset_connection` step on the globals and on the
emitted action list. -/
def applyRStep (sub : Subscription) : SysState × List EAction → RStep → SysState × List EAction
  | (s, as), .setDropFlag => ({ s with are_new_messages_to_drop := true }, as)
  | (s, as), .clearJournal => ({ s with timestamp_orderbook_update_map := [] }, as)
  | (s, as), .doUnsubscribe => (s, as ++ [.unsubscribe sub.sub_id])
  | (s, as), .doSubscribe => (s, as ++ [.subscribe sub.params])
  | (s, as), .clearBook => ({ s with order_book := OrderBook.emptyBook }, as)

/-- The statement order of `_reset_connection`: set the drop flag, clear the
journal map, await the unsubscribe, await the subscribe, clear the book. -/
def resetSteps : List RStep :=
  [.setDropFlag, .clearJournal, .doUnsubscribe, .doSubscribe, .clearBook]

/-- `_reset_connection(subscription)` as a whole. -/
def reset_connection (s : SysState) (sub : Subscription) : SysState × List EAction :=
  resetSteps.foldl (applyRStep sub) (s, [])

/-- The trace of intermediate `(state, actions so far)` points of
`_reset_connection`: entry 0 is the initial point, entry `i` the point after
the first `i` steps of `resetSteps`. -/
def resetTrace (s : SysState) (sub : Subscription) : List (SysState × List EAction) :=
  resetSteps.scanl (applyRStep sub) (s, [])

/-- `on_t_book_snapshot`: reset the recording window and the drop flag,
apply every snapshot level to the book, and store a deep copy of the full
replica at the snapshot timestamp. -/
def on_t_book_snapshot (s : SysState) (_sub : Subscription)
    (snapshot : List TradingPairBook) (timestamp : Int) : SysState :=
  let s := { s with
    starting_timestamp := timestamp,
    ending_timestamp := timestamp + SECONDS_RECORDING_DURATION * 1000,
    are_new_messages_to_drop := false }
  let book := snapshot.foldl OrderBook.update s.order_book
  let j := odInsert timestamp (JEntry.bookCopy book) s.timestamp_orderbook_update_map
  { s with order_book := book, timestamp_orderbook_update_map := j }

/-- The tail of `on_t_book_update`: when the update's timestamp has reached
`ending_timestamp`, store the sentinel full-replica copy at key `-1`, dump
the journal to `data/data_{timestamp}.json`, and run `_reset_connection`. -/
def on_t_book_update_close (s : SysState) (sub : Subscription) (timestamp : Int) :
    Except PyErr (SysState × List EAction) :=
  if s.ending_timestamp ≤ timestamp then
    let j := odInsert (-1) (.bookCopy s.order_book) s.timestamp_orderbook_update_map
    let s := { s with timestamp_orderbook_update_map := j }
    let saveAct := save_orderbook_messages_to_file timestamp false
      s.timestamp_orderbook_update_map
    let r := reset_connection s sub
    .ok (r.1, saveAct :: r.2)
  else .ok (s, [])

/-- `on_t_book_update`: drop the event when the transient flag is set;
otherwise apply the level to the book, append its price/amount/count to the
journal entry of this timestamp (creating it if fresh; a `KeyError` if the
existing entry is a snapshot copy), and on window expiry store the sentinel
deep copy, dump the journal, and reset the connection. -/
def on_t_book_update (s : SysState) (sub : Subscription) (data : TradingPairBook)
    (timestamp : Int) : Except PyErr (SysState × List EAction) :=
  if s.are_new_messages_to_drop then .ok (s, [])
  else
    let s := { s with order_book := s.order_book.update data }
    match odLookup timestamp s.timestamp_orderbook_update_map with
    | some (JEntry.bookCopy _) => .error .keyError
    | some (JEntry.upd p a c) =>
      let j := odInsert timestamp
        (JEntry.upd (p ++ [data.price]) (a ++ [data.amount]) (c ++ [data.count]))
        s.timestamp_orderbook_update_map
      let s := { s with timestamp_orderbook_update_map := j }
      on_t_book_update_close s sub timestamp
    | none =>
      let j := odInsert timestamp (JEntry.upd [data.price] [data.amount] [data.count])
        s.timestamp_orderbook_update_map
      let s := { s with timestamp_orderbook_update_map := j }
      on_t_book_update_close s sub timestamp

/-- `_get_orderbook_updates_until`: the journal restricted to keys at most
the given timestamp, order preserved. -/
def get_orderbook_updates_until (journal : List (Int × JEntry)) (timestamp : Int) :
    List (Int × JEntry) :=
  journal.filter fun kv => kv.1 ≤ timestamp

/-- `on_checksum`: when the book is verifiable, verify; on a mismatch,
restrict the journal to the last verified timestamp, dump it as
interrupted at that timestamp, and reset the connection; on a match record
the checksum timestamp; when not verifiable, do nothing. A `ValueError`
escaping `verify` propagates. -/
def on_checksum (s : SysState) (sub : Subscription) (value : Nat) (timestamp : Int) :
    Except PyErr (SysState × List EAction) :=
  if s.order_book.is_verifiable then
    match s.order_book.verify value with
    | .error e => .error e
    | .ok true => .ok ({ s with last_checksum_timestamp := timestamp }, [])
    | .ok false =>
      let filtered :=
        get_orderbook_updates_until s.timestamp_orderbook_update_map s.last_checksum_timestamp
      let s := { s with timestamp_orderbook_update_map := filtered }
      let saveAct := save_orderbook_messages_to_file s.last_checksum_timestamp true filtered
      let r := reset_connection s sub
      .ok (r.1, saveAct :: r.2)
  else .ok (s, [])

/-- Digit list with trailing zeros removed (to normalise whole numbers into
shortest-representation mantissas). -/
def stripTrailing (ds : List Nat) : List Nat := (ds.reverse.dropWhile (· = 0)).reverse

/-- The modelled float of a whole number, e.g. `pfNat 80 = 8 × 10^1`. -/
def pfNat (n : Nat) : PyFloat :=
  if n = 0 then .zero
  else .nz false (stripTrailing (natDigits n)) (((natDigits n).length - 1 : Nat) : Int)

/-- A bid side with 25 levels at whole prices 100 down to 76, amount 1. -/
def exBids : List (PyFloat × BookEntry) :=
  (List.range 25).map fun i => (pfNat (100 - i), ⟨pfNat (100 - i), 1, pfNat 1⟩)

/-- An ask side with 25 levels at whole prices 101 up to 125, amount -1. -/
def exAsks : List (PyFloat × BookEntry) :=
  (List.range 25).map fun i => (pfNat (101 + i), ⟨pfNat (101 + i), 1, PyFloat.nz true [1] 0⟩)

/-- A fully verifiable 25+25 book. -/
def exBook : OrderBook := ⟨exBids, exAsks⟩

/-- The exponent field of a scientific `_format_float` output after the
`e-0` replacement: the single digit for magnitudes up to 9 (the padding
zero is stripped), the full digit list otherwise. -/
def trimExp (a : Nat) : List Char :=
  if a < 10 then [digitChar a] else (natDigits a).map digitChar

/-- Both sides of the book have duplicate-free price keys (the dict
invariant of the Python store). -/
def NodupBook (bk : OrderBook) : Prop :=
  (odKeys bk.bids).Nodup ∧ (odKeys bk.asks).Nodup

instance (bk : OrderBook) : Decidable (NodupBook bk) := by
  unfold NodupBook
  infer_instance

/-- The side `update` routes the level to (`"bids" if amount > 0 else
"asks"`). -/
def chosenSide (bk : OrderBook) (d : TradingPairBook) : List (PyFloat × BookEntry) :=
  if d.amount.gtZero then bk.bids else bk.asks

/-- The side `update` leaves untouched. -/
def otherSide (bk : OrderBook) (d : TradingPairBook) : List (PyFloat × BookEntry) :=
  if d.amount.gtZero then bk.asks else bk.bids

/-- A concrete book subscription. -/
def exSub : Subscription := ⟨7, ⟨"book".data, "tBTCUSD".data, "P0".data, "25".data⟩⟩

/-- A concrete incoming level. -/
def exLevel : TradingPairBook := ⟨pfNat 1, 1, pfNat 1⟩

/-- A concrete global state with a nonempty book and a nonempty journal. -/
def exState : SysState :=
  ⟨⟨[(pfNat 1, ⟨pfNat 1, 1, pfNat 1⟩)], []⟩,
   [(5, JEntry.upd [pfNat 1] [pfNat 1] [1])], 0, 0, 0, false⟩

/-- `exState` with the drop flag raised. -/
def exDropState : SysState := { exState with are_new_messages_to_drop := true }

/-- A state holding the verifiable `exBook`, a two-window journal and a last
verified checksum timestamp of 10, mid-window. -/
def exDivState : SysState :=
  ⟨exBook,
   [(10, JEntry.upd [pfNat 1] [pfNat 1] [1]), (20, JEntry.upd [pfNat 2] [pfNat 2] [1])],
   10, 0, 9999999, false⟩

/-- A state whose recording window (started at timestamp 0) ends at 100. -/
def exTimerState : SysState := ⟨OrderBook.emptyBook, [], 0, 0, 100, false⟩

/-- An ask side like `exAsks` but whose best level has amount exactly 0. -/
def exZeroAsks : List (PyFloat × BookEntry) :=
  (pfNat 101, ⟨pfNat 101, 1, PyFloat.zero⟩) ::
    (List.range 24).map fun i => (pfNat (102 + i), ⟨pfNat (102 + i), 1, PyFloat.nz true [1] 0⟩)

/-- A verifiable book with a zero amount among its top 25 ask levels. -/
def exZeroBook : OrderBook := ⟨exBids, exZeroAsks⟩


theorem odKeys_nil {α β : Type} : odKeys ([] : List (α × β)) = [] := rfl

theorem odKeys_cons {α β : Type} (kv : α × β) (l : List (α × β)) :
    odKeys (kv :: l) = kv.1 :: odKeys l := rfl

section OdLemmas

variable {α β : Type} [DecidableEq α]

theorem odInsert_cons (k k2 : α) (v v2 : β) (rest : List (α × β)) :
    odInsert k v ((k2, v2) :: rest) =
      if k2 = k then (k2, v) :: rest else (k2, v2) :: odInsert k v rest := rfl

theorem odLookup_odInsert_self (k : α) (v : β) (l : List (α × β)) :
    odLookup k (odInsert k v l) = some v := by
  induction l with
  | nil => simp [odInsert, odLookup]
  | cons kv rest ih =>
    obtain ⟨k2, v2⟩ := kv
    by_cases h : k2 = k
    · subst h
      simp [odInsert, odLookup]
    · simp [odInsert, odLookup, h, ih]

theorem odLookup_odInsert_ne (a k : α) (v : β) (l : List (α × β)) (h : a ≠ k) :
    odLookup a (odInsert k v l) = odLookup a l := by
  have h2 : k ≠ a := Ne.symm h
  induction l with
  | nil => simp [odInsert, odLookup, h2]
  | cons kv rest ih =>
    obtain ⟨k2, v2⟩ := kv
    by_cases hk : k2 = k
    · subst hk
      simp [odInsert, odLookup, h2]
    · simp [odInsert, odLookup, hk, ih]

theorem mem_odKeys_odInsert (a k : α) (v : β) (l : List (α × β)) :
    a ∈ odKeys (odInsert k v l) ↔ a = k ∨ a ∈ odKeys l := by
  induction l with
  | nil => simp [odInsert, odKeys_cons, odKeys_nil]
  | cons kv rest ih =>
    obtain ⟨k2, v2⟩ := kv
    by_cases h : k2 = k
    · subst h
      simp [odInsert_cons, odKeys_cons]
    · simp [odInsert_cons, h, odKeys_cons, ih]
      tauto

theorem odKeys_odInsert_of_mem (k : α) (v : β) (l : List (α × β)) (h : k ∈ odKeys l) :
    odKeys (odInsert k v l) = odKeys l := by
  induction l with
  | nil => simp [odKeys_nil] at h
  | cons kv rest ih =>
    obtain ⟨k2, v2⟩ := kv
    by_cases h2 : k2 = k
    · subst h2
      simp [odInsert, odKeys_cons]
    · rw [odKeys_cons, List.mem_cons] at h
      rcases h with h | h
      · exact absurd h.symm h2
      · simp only [odInsert_cons, if_neg h2, odKeys_cons, ih h]

theorem odKeys_odInsert_of_not_mem (k : α) (v : β) (l : List (α × β)) (h : k ∉ odKeys l) :
    odKeys (odInsert k v l) = odKeys l ++ [k] := by
  induction l with
  | nil => simp [odInsert, odKeys_cons, odKeys_nil]
  | cons kv rest ih =>
    obtain ⟨k2, v2⟩ := kv
    rw [odKeys_cons, List.mem_cons] at h
    push_neg at h
    have h2 : k2 ≠ k := fun hh => h.1 hh.symm
    simp only [odInsert_cons, if_neg h2, odKeys_cons, ih h.2, List.cons_append]

theorem nodup_odKeys_odInsert (k : α) (v : β) (l : List (α × β))
    (h : (odKeys l).Nodup) : (odKeys (odInsert k v l)).Nodup := by
  by_cases hm : k ∈ odKeys l
  · rw [odKeys_odInsert_of_mem k v l hm]
    exact h
  · rw [odKeys_odInsert_of_not_mem k v l hm]
    simp [List.nodup_append, h, hm]

theorem count_odKeys_odInsert (k : α) (v : β) (l : List (α × β))
    (h : (odKeys l).Nodup) : (odKeys (odInsert k v l)).count k = 1 := by
  by_cases hm : k ∈ odKeys l
  · rw [odKeys_odInsert_of_mem k v l hm]
    exact List.count_eq_one_of_mem h hm
  · rw [odKeys_odInsert_of_not_mem k v l hm]
    simp [List.count_append, List.count_eq_zero_of_not_mem hm]

theorem odLookup_eq_none_iff (k : α) (l : List (α × β)) :
    odLookup k l = none ↔ k ∉ odKeys l := by
  induction l with
  | nil => simp [odLookup, odKeys_nil]
  | cons kv rest ih =>
    obtain ⟨k2, v2⟩ := kv
    rw [odKeys_cons, List.mem_cons]
    by_cases h : k2 = k
    · subst h
      simp [odLookup]
    · have h2 : k ≠ k2 := Ne.symm h
      simp [odLookup, h, ih, h2]

theorem odErase_of_not_mem (k : α) (l : List (α × β)) (h : k ∉ odKeys l) :
    odErase k l = l := by
  induction l with
  | nil => simp [odErase]
  | cons kv rest ih =>
    obtain ⟨k2, v2⟩ := kv
    rw [odKeys_cons, List.mem_cons] at h
    push_neg at h
    have h2 : k2 ≠ k := fun hh => h.1 hh.symm
    simp [odErase, h2, ih h.2]

theorem odLookup_odErase_self (k : α) (l : List (α × β)) (h : (odKeys l).Nodup) :
    odLookup k (odErase k l) = none := by
  induction l with
  | nil => simp [odErase, odLookup]
  | cons kv rest ih =>
    obtain ⟨k2, v2⟩ := kv
    rw [odKeys_cons, List.nodup_cons] at h
    by_cases h2 : k2 = k
    · subst h2
      rw [odErase, if_pos rfl, odLookup_eq_none_iff]
      exact h.1
    · simp [odErase, odLookup, h2, ih h.2]

theorem odErase_sublist (k : α) (l : List (α × β)) : List.Sublist (odErase k l) l := by
  induction l with
  | nil => simp [odErase]
  | cons kv rest ih =>
    obtain ⟨k2, v2⟩ := kv
    by_cases h : k2 = k
    · simp [odErase, h]
    · simp [odErase, h]
      exact ih

theorem nodup_odKeys_odErase (k : α) (l : List (α × β))
    (h : (odKeys l).Nodup) : (odKeys (odErase k l)).Nodup := by
  have hs : List.Sublist (odKeys (odErase k l)) (odKeys l) :=
    List.Sublist.map Prod.fst (odErase_sublist k l)
  exact h.sublist hs

end OdLemmas

theorem length_insertSorted {α : Type} (le : α → α → Bool) (x : α) (l : List α) :
    (insertSorted le x l).length = l.length + 1 := by
  induction l with
  | nil => simp [insertSorted]
  | cons y ys ih =>
    by_cases h : le x y
    · simp [insertSorted, h]
    · simp [insertSorted, h, ih]

theorem length_insertionSort {α : Type} (le : α → α → Bool) (l : List α) :
    (insertionSort le l).length = l.length := by
  induction l with
  | nil => simp [insertionSort]
  | cons x xs ih => simp [insertionSort, length_insertSorted, ih]

theorem sortedBids_length (bk : OrderBook) : bk.sortedBids.length = bk.bids.length := by
  simp [OrderBook.sortedBids, length_insertionSort]

theorem sortedAsks_length (bk : OrderBook) : bk.sortedAsks.length = bk.asks.length := by
  simp [OrderBook.sortedAsks, length_insertionSort]

theorem format_float_zero : format_float .zero = none := rfl

theorem mapFormat_eq_none_of_mem (l : List PyFloat) (v : PyFloat) (hm : v ∈ l)
    (hf : format_float v = none) : mapFormat l = none := by
  induction l with
  | nil => simp at hm
  | cons x xs ih =>
    rcases List.mem_cons.mp hm with h | h
    · subst h
      simp [mapFormat, hf]
    · cases hx : format_float x with
      | none => simp [mapFormat, hx]
      | some s => simp [mapFormat, hx, ih h]

theorem replaceE0_cons_ne (c : Char) (t : List Char) (h : c ≠ 'e') :
    replaceE0 (c :: t) = c :: replaceE0 t := by
  cases t with
  | nil => rfl
  | cons c2 t2 =>
    cases t2 with
    | nil => rfl
    | cons c3 t3 => simp [replaceE0, h]

theorem replaceE0_of_forall_ne (l : List Char) (h : ∀ c ∈ l, c ≠ 'e') :
    replaceE0 l = l := by
  induction l with
  | nil => rfl
  | cons c t ih =>
    rw [replaceE0_cons_ne c t (h c (by simp)),
      ih fun c2 hc => h c2 (List.mem_cons_of_mem _ hc)]

theorem replaceE0_append (m r : List Char) (h : ∀ c ∈ m, c ≠ 'e') :
    replaceE0 (m ++ r) = m ++ replaceE0 r := by
  induction m with
  | nil => simp
  | cons c t ih =>
    rw [List.cons_append, replaceE0_cons_ne _ _ (h c (by simp)),
      ih fun c2 hc => h c2 (List.mem_cons_of_mem _ hc), List.cons_append]

theorem digitChar_ne_e (d : Nat) (h : d < 10) : digitChar d ≠ 'e' := by
  interval_cases d <;> decide

theorem digitChar_ne_zero (d : Nat) (h1 : 1 ≤ d) (h2 : d < 10) : digitChar d ≠ '0' := by
  interval_cases d <;> decide

theorem map_digitChar_ne_e (ds : List Nat) (h : ∀ d ∈ ds, d < 10) :
    ∀ c ∈ ds.map digitChar, c ≠ 'e' := by
  intro c hc
  rcases List.mem_map.mp hc with ⟨d, hd, rfl⟩
  exact digitChar_ne_e d (h d hd)

theorem sciMantissa_subset (neg : Bool) (ds : List Nat) :
    ∀ c ∈ sciMantissa neg ds, c = '-' ∨ c = '.' ∨ c ∈ ds.map digitChar := by
  intro c hc
  rcases ds with _ | ⟨d, _ | ⟨d2, rest⟩⟩ <;> cases neg <;>
    simp [sciMantissa] at hc ⊢ <;> tauto

theorem sciMantissa_ne_e (neg : Bool) (ds : List Nat) (h : ∀ d ∈ ds, d < 10) :
    ∀ c ∈ sciMantissa neg ds, c ≠ 'e' := by
  intro c hc
  rcases sciMantissa_subset neg ds c hc with rfl | rfl | hc2
  · decide
  · decide
  · exact map_digitChar_ne_e ds h c hc2

theorem decimalFixed_ne_e (neg : Bool) (ds : List Nat) (e : Int)
    (h : ∀ d ∈ ds, d < 10) : ∀ c ∈ decimalFixed (.nz neg ds e), c ≠ 'e' := by
  intro c hc
  have hmap := map_digitChar_ne_e ds h
  have hbody : ∀ c2 ∈ (if e < 0 then
        '0' :: '.' :: (List.replicate ((-e).toNat - 1) '0' ++ ds.map digitChar)
      else if e.toNat + 1 < ds.length then
        (ds.map digitChar).take (e.toNat + 1) ++ '.' :: (ds.map digitChar).drop (e.toNat + 1)
      else if e < 16 then
        (ds.map digitChar ++ List.replicate (e.toNat + 1 - ds.length) '0') ++ ['.', '0']
      else ds.map digitChar ++ List.replicate (e.toNat + 1 - ds.length) '0'), c2 ≠ 'e' := by
    intro c2 hc2
    split_ifs at hc2
    · simp only [List.mem_cons, List.mem_append, List.mem_replicate] at hc2
      rcases hc2 with rfl | rfl | ⟨_, rfl⟩ | hc2
      · decide
      · decide
      · decide
      · exact hmap c2 hc2
    · simp only [List.mem_append, List.mem_cons] at hc2
      rcases hc2 with hc2 | rfl | hc2
      · exact hmap c2 (List.take_subset _ _ hc2)
      · decide
      · exact hmap c2 (List.drop_subset _ _ hc2)
    · simp only [List.mem_append, List.mem_cons, List.mem_replicate,
        List.mem_singleton, List.not_mem_nil, or_false] at hc2
      rcases hc2 with (hc2 | ⟨_, rfl⟩) | rfl | rfl
      · exact hmap c2 hc2
      · decide
      · decide
      · decide
    · simp only [List.mem_append, List.mem_replicate] at hc2
      rcases hc2 with hc2 | ⟨_, rfl⟩
      · exact hmap c2 hc2
      · decide
  have hrfl : decimalFixed (.nz neg ds e) = (if neg then
      '-' :: (if e < 0 then
        '0' :: '.' :: (List.replicate ((-e).toNat - 1) '0' ++ ds.map digitChar)
      else if e.toNat + 1 < ds.length then
        (ds.map digitChar).take (e.toNat + 1) ++ '.' :: (ds.map digitChar).drop (e.toNat + 1)
      else if e < 16 then
        (ds.map digitChar ++ List.replicate (e.toNat + 1 - ds.length) '0') ++ ['.', '0']
      else ds.map digitChar ++ List.replicate (e.toNat + 1 - ds.length) '0')
    else (if e < 0 then
        '0' :: '.' :: (List.replicate ((-e).toNat - 1) '0' ++ ds.map digitChar)
      else if e.toNat + 1 < ds.length then
        (ds.map digitChar).take (e.toNat + 1) ++ '.' :: (ds.map digitChar).drop (e.toNat + 1)
      else if e < 16 then
        (ds.map digitChar ++ List.replicate (e.toNat + 1 - ds.length) '0') ++ ['.', '0']
      else ds.map digitChar ++ List.replicate (e.toNat + 1 - ds.length) '0')) := rfl
  rw [hrfl] at hc
  cases neg with
  | false =>
    rw [if_neg (by simp)] at hc
    exact hbody c hc
  | true =>
    rw [if_pos rfl, List.mem_cons] at hc
    rcases hc with rfl | hc
    · decide
    · exact hbody c hc

theorem natDigitsAux_spec (fuel : Nat) : ∀ n, 1 ≤ n → n ≤ fuel →
    ∃ d t, natDigitsAux fuel n = d :: t ∧ 1 ≤ d ∧ d < 10 ∧ ∀ x ∈ t, x < 10 := by
  induction fuel with
  | zero => intro n h1 h2; omega
  | succ fuel ih =>
    intro n h1 h2
    obtain ⟨m, rfl⟩ : ∃ m, n = m + 1 := ⟨n - 1, by omega⟩
    by_cases h10 : m + 1 < 10
    · have hd : (m + 1) / 10 = 0 := by omega
      have hm : (m + 1) % 10 = m + 1 := by omega
      refine ⟨m + 1, [], ?_, by omega, h10, by simp⟩
      show natDigitsAux fuel ((m + 1) / 10) ++ [(m + 1) % 10] = [m + 1]
      rw [hd, hm]
      cases fuel <;> rfl
    · have hq1 : 1 ≤ (m + 1) / 10 := by omega
      have hlt := Nat.div_lt_self (show 0 < m + 1 by omega) (show 1 < 10 by omega)
      have hq2 : (m + 1) / 10 ≤ fuel := by omega
      obtain ⟨d, t, heq, hd1, hd2, ht⟩ := ih ((m + 1) / 10) hq1 hq2
      refine ⟨d, t ++ [(m + 1) % 10], ?_, hd1, hd2, ?_⟩
      · show natDigitsAux fuel ((m + 1) / 10) ++ [(m + 1) % 10] = d :: (t ++ [(m + 1) % 10])
        rw [heq]
        rfl
      · intro x hx
        rcases List.mem_append.mp hx with hx | hx
        · exact ht x hx
        · simp at hx
          omega

theorem natDigits_spec (n : Nat) (h : 1 ≤ n) :
    ∃ d t, natDigits n = d :: t ∧ 1 ≤ d ∧ d < 10 ∧ ∀ x ∈ t, x < 10 :=
  natDigitsAux_spec n n h le_rfl

theorem natDigits_two_digits (n : Nat) (h : 10 ≤ n) : 2 ≤ (natDigits n).length := by
  obtain ⟨m, rfl⟩ : ∃ m, n = m + 1 := ⟨n - 1, by omega⟩
  have hq1 : 1 ≤ (m + 1) / 10 := by omega
  have hlt := Nat.div_lt_self (show 0 < m + 1 by omega) (show 1 < 10 by omega)
  obtain ⟨d, t, heq, _, _, _⟩ := natDigitsAux_spec m ((m + 1) / 10) hq1 (by omega)
  show 2 ≤ (natDigitsAux (m + 1) (m + 1)).length
  have : natDigitsAux (m + 1) (m + 1) = natDigitsAux m ((m + 1) / 10) ++ [(m + 1) % 10] := rfl
  rw [this, heq]
  simp

theorem trimExp_facts (a : Nat) (h : 7 ≤ a) :
    (trimExp a).head? ≠ some '0' ∧ (a < 10 → (trimExp a).length = 1) ∧
    (10 ≤ a → 2 ≤ (trimExp a).length) ∧ (trimExp a) ≠ [] := by
  by_cases h10 : a < 10
  · refine ⟨?_, fun _ => by simp [trimExp, h10], fun hc => absurd hc (by omega),
      by simp [trimExp, h10]⟩
    simp only [trimExp, if_pos h10, List.head?_cons]
    intro hc
    exact digitChar_ne_zero a (by omega) h10 (by injection hc)
  · obtain ⟨d, t, heq, hd1, hd2, _⟩ := natDigits_spec a (by omega)
    have hlen := natDigits_two_digits a (by omega)
    refine ⟨?_, fun hc => absurd hc h10, fun _ => ?_, ?_⟩
    · simp only [trimExp, if_neg h10, heq, List.map_cons, List.head?_cons]
      intro hc
      exact digitChar_ne_zero d hd1 hd2 (by injection hc)
    · simpa [trimExp, if_neg h10] using hlen
    · simp [trimExp, if_neg h10, heq]

theorem trimExp_ne_e (a : Nat) : ∀ c ∈ trimExp a, c ≠ 'e' := by
  intro c hc
  by_cases h10 : a < 10
  · simp only [trimExp, if_pos h10, List.mem_singleton] at hc
    subst hc
    exact digitChar_ne_e a h10
  · simp only [trimExp, if_neg h10] at hc
    rcases List.mem_map.mp hc with ⟨d, hd, rfl⟩
    by_cases ha : a = 0
    · subst ha
      simp [natDigits, natDigitsAux] at hd
    · obtain ⟨d2, t, heq, _, hd2, ht⟩ := natDigits_spec a (by omega)
      rw [heq, List.mem_cons] at hd
      rcases hd with rfl | hd
      · exact digitChar_ne_e d hd2
      · exact digitChar_ne_e d (ht d hd)

theorem format_float_fixed (neg : Bool) (ds : List Nat) (e : Int) (he : -6 ≤ e) :
    format_float (.nz neg ds e) = some (decimalFixed (.nz neg ds e)) := by
  simp [format_float, find_exp, he]

theorem format_float_sci (neg : Bool) (ds : List Nat) (e : Int)
    (hds : ∀ d ∈ ds, d < 10) (he : e < -6) :
    format_float (.nz neg ds e) =
      some (sciMantissa neg ds ++ 'e' :: '-' :: trimExp e.natAbs) := by
  have hm := sciMantissa_ne_e neg ds hds
  have hstr : pyStr (.nz neg ds e) =
      sciMantissa neg ds ++ 'e' :: '-' :: pyExpPad e.natAbs := by
    have hcond : ¬(-4 ≤ e ∧ e < 16) := by omega
    have hneg : e < 0 := by omega
    simp [pyStr, hcond, hneg]
  have hrepl : replaceE0 (sciMantissa neg ds ++ 'e' :: '-' :: pyExpPad e.natAbs) =
      sciMantissa neg ds ++ 'e' :: '-' :: trimExp e.natAbs := by
    rw [replaceE0_append _ _ hm]
    congr 1
    by_cases h10 : e.natAbs < 10
    · have : pyExpPad e.natAbs = ['0', digitChar e.natAbs] := by simp [pyExpPad, h10]
      rw [this]
      have : trimExp e.natAbs = [digitChar e.natAbs] := by simp [trimExp, h10]
      rw [this]
      show (if 'e' = 'e' ∧ '-' = '-' ∧ '0' = '0' then
        'e' :: '-' :: replaceE0 [digitChar e.natAbs]
        else 'e' :: replaceE0 ('-' :: '0' :: [digitChar e.natAbs])) =
        ['e', '-', digitChar e.natAbs]
      rw [if_pos ⟨rfl, rfl, rfl⟩]
      rfl
    · have hpad : pyExpPad e.natAbs = (natDigits e.natAbs).map digitChar := by
        simp [pyExpPad, h10]
      have htrim : trimExp e.natAbs = (natDigits e.natAbs).map digitChar := by
        simp [trimExp, h10]
      obtain ⟨d, t, heq, hd1, hd2, ht⟩ := natDigits_spec e.natAbs (by omega)
      rw [hpad, htrim, heq, List.map_cons]
      have hdz : digitChar d ≠ '0' := digitChar_ne_zero d hd1 hd2
      have hde : ∀ c ∈ digitChar d :: t.map digitChar, c ≠ 'e' := by
        intro c hc
        rcases List.mem_cons.mp hc with rfl | hc
        · exact digitChar_ne_e d hd2
        · rcases List.mem_map.mp hc with ⟨x, hx, rfl⟩
          exact digitChar_ne_e x (ht x hx)
      show (if 'e' = 'e' ∧ '-' = '-' ∧ digitChar d = '0' then
          'e' :: '-' :: replaceE0 (t.map digitChar)
          else 'e' :: replaceE0 ('-' :: digitChar d :: t.map digitChar)) =
        'e' :: '-' :: digitChar d :: t.map digitChar
      rw [if_neg (by simp [hdz])]
      rw [replaceE0_cons_ne _ _ (by decide), replaceE0_of_forall_ne _ hde]
  have hcond : ¬(-6 ≤ e) := by omega
  simp [format_float, find_exp, hcond, hstr, hrepl]

theorem flatMap_range_getD_zip (n : Nat) (xs ys : List (PyFloat × Int × PyFloat))
    (hx : n ≤ xs.length) (hy : n ≤ ys.length) :
    ((List.range n).flatMap fun i =>
      [(xs.getD i pfTriple0).1, (xs.getD i pfTriple0).2.2,
       (ys.getD i pfTriple0).1, (ys.getD i pfTriple0).2.2]) =
    ((xs.take n).zip (ys.take n)).flatMap fun ba =>
      [ba.1.1, ba.1.2.2, ba.2.1, ba.2.2.2] := by
  induction n generalizing xs ys with
  | zero => simp
  | succ n ih =>
    cases xs with
    | nil => simp at hx
    | cons x xs =>
      cases ys with
      | nil => simp at hy
      | cons y ys =>
        rw [List.range_succ_eq_map, List.flatMap_cons, List.flatMap_map]
        simp only [List.getD_cons_zero, List.getD_cons_succ]
        rw [List.take_succ_cons, List.take_succ_cons, List.zip_cons_cons, List.flatMap_cons]
        rw [ih xs ys (by simpa using hx) (by simpa using hy)]

theorem checksumValues_eq_spec (bk : OrderBook)
    (hb : 25 ≤ bk.bids.length) (ha : 25 ≤ bk.asks.length) :
    bk.checksumValues =
      ((bk.sortedBids.take 25).zip (bk.sortedAsks.take 25)).flatMap fun ba =>
        [ba.1.1, ba.1.2.2, ba.2.1, ba.2.2.2] := by
  apply flatMap_range_getD_zip
  · rw [sortedBids_length]
    omega
  · rw [sortedAsks_length]
    omega

theorem verify_not_short (bk : OrderBook)
    (hb : 25 ≤ bk.bids.length) (ha : 25 ≤ bk.asks.length) :
    ¬(bk.sortedBids.length < 25 ∨ bk.sortedAsks.length < 25) := by
  rw [sortedBids_length, sortedAsks_length]
  omega

theorem odLookup_filter_none {α β : Type} [DecidableEq α] (k : α) (p : α × β → Bool)
    (l : List (α × β)) (h : odLookup k l = none) : odLookup k (l.filter p) = none := by
  rw [odLookup_eq_none_iff] at h ⊢
  intro hm
  apply h
  rcases List.mem_map.mp hm with ⟨kv, hkv, rfl⟩
  exact List.mem_map_of_mem _ (List.mem_of_mem_filter hkv)

theorem chosenSide_update (bk : OrderBook) (d : TradingPairBook) :
    chosenSide (bk.update d) d = sideApply d (chosenSide bk d) := by
  by_cases h : d.amount.gtZero <;> simp [OrderBook.update, chosenSide, h]

theorem otherSide_update (bk : OrderBook) (d : TradingPairBook) :
    otherSide (bk.update d) d = otherSide bk d := by
  by_cases h : d.amount.gtZero <;> simp [OrderBook.update, otherSide, h]

theorem reset_connection_eq (s : SysState) (sub : Subscription) :
    reset_connection s sub =
      ({ s with are_new_messages_to_drop := true,
                timestamp_orderbook_update_map := [],
                order_book := OrderBook.emptyBook },
       [EAction.unsubscribe sub.sub_id, EAction.subscribe sub.params]) := rfl

theorem on_t_book_update_timer (s : SysState) (sub : Subscription) (d : TradingPairBook)
    (ts : Int) (hdrop : s.are_new_messages_to_drop = false)
    (hfresh : odLookup ts s.timestamp_orderbook_update_map = none)
    (hend : s.ending_timestamp ≤ ts) :
    on_t_book_update s sub d ts = .ok
      ({ s with order_book := OrderBook.emptyBook,
                timestamp_orderbook_update_map := [],
                are_new_messages_to_drop := true },
       [EAction.saveFile ts false
          (odInsert (-1) (JEntry.bookCopy (s.order_book.update d))
            (odInsert ts (JEntry.upd [d.price] [d.amount] [d.count])
              s.timestamp_orderbook_update_map)),
        EAction.unsubscribe sub.sub_id, EAction.subscribe sub.params]) := by
  simp [on_t_book_update, hdrop, hfresh, on_t_book_update_close, hend,
    reset_connection_eq, save_orderbook_messages_to_file]

theorem on_t_book_update_open (s : SysState) (sub : Subscription) (d : TradingPairBook)
    (ts : Int) (hdrop : s.are_new_messages_to_drop = false)
    (hfresh : odLookup ts s.timestamp_orderbook_update_map = none)
    (hend : ¬(s.ending_timestamp ≤ ts)) :
    on_t_book_update s sub d ts = .ok
      ({ s with order_book := s.order_book.update d,
                timestamp_orderbook_update_map :=
                  odInsert ts (JEntry.upd [d.price] [d.amount] [d.count])
                    s.timestamp_orderbook_update_map }, []) := by
  simp [on_t_book_update, hdrop, hfresh, on_t_book_update_close, hend]

theorem on_checksum_mismatch (s : SysState) (sub : Subscription) (v : Nat) (ts : Int)
    (hver : s.order_book.is_verifiable = true)
    (hfalse : s.order_book.verify v = .ok false) :
    on_checksum s sub v ts = .ok
      ({ s with timestamp_orderbook_update_map := [],
                order_book := OrderBook.emptyBook,
                are_new_messages_to_drop := true },
       [EAction.saveFile s.last_checksum_timestamp true
          (get_orderbook_updates_until s.timestamp_orderbook_update_map
            s.last_checksum_timestamp),
        EAction.unsubscribe sub.sub_id, EAction.subscribe sub.params]) := by
  simp [on_checksum, hver, hfalse, reset_connection_eq, save_orderbook_messages_to_file]

set_option maxRecDepth 200000

/-- C1 (amended): for every replica book whose bid and ask sides each hold
at least 25 levels and whose canonical checksum string is defined (the spec
side computation succeeds, i.e. all 100 top-of-book values are nonzero),
`verify` computes its checksum over exactly the spec's canonical string —
top 25 bids descending zipped with top 25 asks ascending, each pair
emitting (bidPrice, bidAmount, askPrice, askAmount), formatted and joined
with `:` — as the CRC-32 of its UTF-8 bytes, and returns true iff that CRC
equals the declared checksum. -/
theorem claimC1_verify_canonical_crc (bk : OrderBook) (c : Nat) (cs : List Char)
    (hb : 25 ≤ bk.bids.length) (ha : 25 ≤ bk.asks.length)
    (hs : specChecksumString bk = some cs) :
    OrderBook.verify bk c = .ok (crc32 (cs.map Char.toNat) == c)
    ∧ (OrderBook.verify bk c = .ok true ↔ crc32 (cs.map Char.toNat) = c) := by
  have hns := verify_not_short bk hb ha
  have hvals := checksumValues_eq_spec bk hb ha
  simp only [specChecksumString] at hs
  rcases Option.map_eq_some'.mp hs with ⟨ss, hss, hcs⟩
  rw [← hvals] at hss
  have h1 : OrderBook.verify bk c = .ok (crc32 (cs.map Char.toNat) == c) := by
    simp only [OrderBook.verify, if_neg hns, hss, ← hcs]
  refine ⟨h1, ?_⟩
  rw [h1]
  constructor
  · intro h2
    simp only [Except.ok.injEq, beq_iff_eq] at h2
    exact h2
  · intro h2
    rw [h2]
    simp

/-- C1 witness: the 25+25 example book satisfies every hypothesis and the
conclusion at declared checksum 0. -/
theorem claimC1_witness :
    25 ≤ exBook.bids.length ∧ 25 ≤ exBook.asks.length
    ∧ specChecksumString exBook = some ((specChecksumString exBook).getD [])
    ∧ (OrderBook.verify exBook 0 =
        .ok (crc32 (((specChecksumString exBook).getD []).map Char.toNat) == 0)
      ∧ (OrderBook.verify exBook 0 = .ok true ↔
          crc32 (((specChecksumString exBook).getD []).map Char.toNat) = 0)) :=
  ⟨by decide, by decide, by rfl,
    claimC1_verify_canonical_crc exBook 0 ((specChecksumString exBook).getD [])
      (by decide) (by decide) (by rfl)⟩

/-- C1 counterexample: a book with 25 levels per side in which one top-25
amount is exactly zero makes `verify` raise the `log10(0)` ValueError
instead of returning the boolean the claim promises for every such book. -/
theorem claimC1_counterexample :
    25 ≤ exZeroBook.bids.length ∧ 25 ≤ exZeroBook.asks.length
    ∧ OrderBook.verify exZeroBook 12345 = .error .valueError := by
  refine ⟨by decide, by decide, by decide⟩

/-- C9: for any replica book with at least 25 levels per side in which one
of the 100 canonical values is exactly 0, verification aborts with the
`log10(0)` math domain error (a ValueError) instead of returning a
boolean. -/
theorem claimC9_verify_zero_domain_error (bk : OrderBook) (c : Nat)
    (hb : 25 ≤ bk.bids.length) (ha : 25 ≤ bk.asks.length)
    (hz : PyFloat.zero ∈ bk.checksumValues) :
    OrderBook.verify bk c = .error .valueError := by
  have hnone := mapFormat_eq_none_of_mem _ _ hz format_float_zero
  simp only [OrderBook.verify, if_neg (verify_not_short bk hb ha), hnone]

/-- C9 witness: the zero-amount example book has 25 levels per side, a zero
among its canonical values, and `verify` raises the domain error on it. -/
theorem claimC9_witness :
    25 ≤ exZeroBook.bids.length ∧ 25 ≤ exZeroBook.asks.length
    ∧ PyFloat.zero ∈ exZeroBook.checksumValues
    ∧ OrderBook.verify exZeroBook 0 = .error .valueError :=
  ⟨by decide, by decide, by decide,
    claimC9_verify_zero_domain_error exZeroBook 0 (by decide) (by decide) (by decide)⟩

/-- C4: `verify` raises the insufficient-depth `AssertionError` exactly when
`is_verifiable()` is false (some side holds fewer than 25 levels), and the
checksum handler checks `is_verifiable()` first, silently skipping
verification — leaving the whole state unchanged and issuing no transport
or storage action — when it is false. -/
theorem claimC4_insufficient_depth (bk : OrderBook) (c : Nat) :
    ((OrderBook.verify bk c = .error .assertionError) ↔ bk.is_verifiable = false)
    ∧ ∀ (s : SysState) (sub : Subscription) (v : Nat) (ts : Int),
        s.order_book.is_verifiable = false → on_checksum s sub v ts = .ok (s, []) := by
  constructor
  · by_cases hcond : bk.sortedBids.length < 25 ∨ bk.sortedAsks.length < 25
    · have hv : bk.is_verifiable = false := by
        rw [sortedBids_length, sortedAsks_length] at hcond
        simp only [OrderBook.is_verifiable, Bool.and_eq_false_iff]
        rcases hcond with h | h
        · left
          simpa using by omega
        · right
          simpa using by omega
      constructor
      · intro _
        exact hv
      · intro _
        simp only [OrderBook.verify, if_pos hcond]
    · constructor
      · intro h
        exfalso
        simp only [OrderBook.verify, if_neg hcond] at h
        cases hm : mapFormat bk.checksumValues with
        | none =>
          rw [hm] at h
          simp at h
        | some ss =>
          rw [hm] at h
          simp at h
      · intro h
        exfalso
        rw [sortedBids_length, sortedAsks_length] at hcond
        push_neg at hcond
        simp only [OrderBook.is_verifiable, Bool.and_eq_false_iff] at h
        rcases h with h | h <;> simp at h <;> omega
  · intro s sub v ts h
    simp [on_checksum, h]

/-- C4 witness: the empty book is not verifiable, `verify` raises the
AssertionError on it, and the handler skips a checksum frame on a state
holding it without any state change or action. -/
theorem claimC4_witness :
    ((OrderBook.verify OrderBook.emptyBook 3 = .error .assertionError) ↔
      OrderBook.emptyBook.is_verifiable = false)
    ∧ OrderBook.verify OrderBook.emptyBook 3 = .error .assertionError
    ∧ on_checksum exTimerState exSub 3 5 = .ok (exTimerState, []) :=
  ⟨(claimC4_insufficient_depth OrderBook.emptyBook 3).1, by decide,
    (claimC4_insufficient_depth OrderBook.emptyBook 3).2 exTimerState exSub 3 5 (by decide)⟩

/-- C3: on a duplicate-free book, applying a level with `count == 0` removes
its price from the selected side (leaving the other side unchanged) and is
a pure no-op — not an error — when the price is absent; applying a level
with `count > 0` upserts so the selected side holds exactly one entry for
that price, carrying the latest count and amount; and the duplicate-free
key invariant is preserved by every call. -/
theorem claimC3_replica_apply (bk : OrderBook) (d : TradingPairBook) (h : NodupBook bk) :
    (d.count = 0 →
      odLookup d.price (chosenSide (bk.update d) d) = none
      ∧ otherSide (bk.update d) d = otherSide bk d
      ∧ (odLookup d.price (chosenSide bk d) = none → bk.update d = bk))
    ∧ (0 < d.count →
      odLookup d.price (chosenSide (bk.update d) d) = some ⟨d.price, d.count, d.amount⟩
      ∧ (odKeys (chosenSide (bk.update d) d)).count d.price = 1
      ∧ otherSide (bk.update d) d = otherSide bk d)
    ∧ NodupBook (bk.update d) := by
  obtain ⟨bb, ba⟩ := bk
  have hside : (odKeys (chosenSide ⟨bb, ba⟩ d)).Nodup := by
    unfold chosenSide
    split_ifs
    exacts [h.1, h.2]
  refine ⟨?_, ?_, ?_⟩
  · intro hc
    have hz : ¬(0 < d.count) := by omega
    refine ⟨?_, otherSide_update _ d, ?_⟩
    · rw [chosenSide_update]
      unfold sideApply
      rw [if_neg hz, if_pos hc]
      exact odLookup_odErase_self _ _ hside
    · intro habs
      have hmem : d.price ∉ odKeys (chosenSide ⟨bb, ba⟩ d) := (odLookup_eq_none_iff _ _).mp habs
      have hid : sideApply d (chosenSide ⟨bb, ba⟩ d) = chosenSide ⟨bb, ba⟩ d := by
        unfold sideApply
        rw [if_neg hz, if_pos hc]
        exact odErase_of_not_mem _ _ hmem
      unfold chosenSide at hid
      unfold OrderBook.update
      split_ifs at hid ⊢ with hg
      · simp only [OrderBook.mk.injEq]
        exact ⟨hid, trivial⟩
      · simp only [OrderBook.mk.injEq]
        exact ⟨trivial, hid⟩
  · intro hc
    refine ⟨?_, ?_, otherSide_update _ d⟩
    · rw [chosenSide_update]
      unfold sideApply
      rw [if_pos hc]
      exact odLookup_odInsert_self _ _ _
    · rw [chosenSide_update]
      unfold sideApply
      rw [if_pos hc]
      exact count_odKeys_odInsert _ _ _ hside
  · unfold NodupBook OrderBook.update
    split_ifs with hg
    · refine ⟨?_, h.2⟩
      unfold sideApply
      split_ifs
      exacts [nodup_odKeys_odInsert _ _ _ h.1, nodup_odKeys_odErase _ _ h.1, h.1]
    · refine ⟨h.1, ?_⟩
      unfold sideApply
      split_ifs
      exacts [nodup_odKeys_odInsert _ _ _ h.2, nodup_odKeys_odErase _ _ h.2, h.2]

/-- C3 witness: on the duplicate-free example book, a count-0 removal of an
absent price is a no-op, a count-2 upsert of an existing price leaves one
entry with the new count, and key nodup is preserved. -/
theorem claimC3_witness :
    exBook.update ⟨pfNat 200, 0, pfNat 1⟩ = exBook
    ∧ odLookup (pfNat 100)
        (chosenSide (exBook.update ⟨pfNat 100, 2, pfNat 3⟩) ⟨pfNat 100, 2, pfNat 3⟩) =
        some ⟨pfNat 100, 2, pfNat 3⟩
    ∧ (odKeys (chosenSide (exBook.update ⟨pfNat 100, 2, pfNat 3⟩)
        ⟨pfNat 100, 2, pfNat 3⟩)).count (pfNat 100) = 1
    ∧ NodupBook (exBook.update ⟨pfNat 100, 2, pfNat 3⟩) :=
  ⟨((claimC3_replica_apply exBook ⟨pfNat 200, 0, pfNat 1⟩ (by decide)).1 rfl).2.2 (by decide),
   ((claimC3_replica_apply exBook ⟨pfNat 100, 2, pfNat 3⟩ (by decide)).2.1 (by decide)).1,
   ((claimC3_replica_apply exBook ⟨pfNat 100, 2, pfNat 3⟩ (by decide)).2.1 (by decide)).2.1,
   (claimC3_replica_apply exBook ⟨pfNat 100, 2, pfNat 3⟩ (by decide)).2.2⟩

/-- C10: `update` selects the bid side exactly when `amount > 0` holds as a
strict comparison, so a level whose amount is exactly 0 is routed to the
ask side (the bid side is never touched), where a positive count upserts
it. -/
theorem claimC10_side_strict_positivity (bk : OrderBook) (d : TradingPairBook) :
    ((bk.update d).bids ≠ bk.bids → d.amount.gtZero = true)
    ∧ (d.amount.gtZero = true →
        (bk.update d).bids = sideApply d bk.bids ∧ (bk.update d).asks = bk.asks)
    ∧ (d.amount.gtZero = false →
        (bk.update d).asks = sideApply d bk.asks ∧ (bk.update d).bids = bk.bids)
    ∧ PyFloat.gtZero PyFloat.zero = false
    ∧ (d.amount = PyFloat.zero →
        (bk.update d).bids = bk.bids
        ∧ (0 < d.count →
            odLookup d.price (bk.update d).asks = some ⟨d.price, d.count, d.amount⟩)) := by
  refine ⟨?_, ?_, ?_, by decide, ?_⟩
  · intro hne
    by_cases hg : d.amount.gtZero
    · exact hg
    · exfalso
      apply hne
      simp [OrderBook.update, hg]
  · intro hg
    simp [OrderBook.update, hg]
  · intro hg
    simp [OrderBook.update, hg]
  · intro hz
    have hg : d.amount.gtZero = false := by
      rw [hz]
      decide
    refine ⟨?_, ?_⟩
    · simp [OrderBook.update, hg]
    · intro hc
      simp only [OrderBook.update, hg, Bool.false_eq_true, if_false]
      unfold sideApply
      rw [if_pos hc]
      exact odLookup_odInsert_self _ _ _

/-- C10 witness: a level with amount exactly 0 and positive count leaves the
bid side of the example book untouched and lands on the ask side. -/
theorem claimC10_witness :
    (exBook.update ⟨pfNat 2, 3, PyFloat.zero⟩).bids = exBook.bids
    ∧ odLookup (pfNat 2) (exBook.update ⟨pfNat 2, 3, PyFloat.zero⟩).asks =
        some ⟨pfNat 2, 3, PyFloat.zero⟩ :=
  ⟨((claimC10_side_strict_positivity exBook ⟨pfNat 2, 3, PyFloat.zero⟩).2.2.2.2 rfl).1,
   ((claimC10_side_strict_positivity exBook ⟨pfNat 2, 3, PyFloat.zero⟩).2.2.2.2 rfl).2
     (by decide)⟩

/-- C8: the drop flag is raised as the first step of the resync procedure
and cleared only by a fresh snapshot (the book-update handler and the
checksum handler never lower it); while it is set, every incoming book
update is discarded, leaving the whole state — Replica Store and Update
Journal included — unchanged and emitting no action. -/
theorem claimC8_drop_flag :
    (∀ (s : SysState) (sub : Subscription),
      (reset_connection s sub).1.are_new_messages_to_drop = true)
    ∧ (∀ (s : SysState) (sub : Subscription) (d : TradingPairBook) (ts : Int),
        s.are_new_messages_to_drop = true → on_t_book_update s sub d ts = .ok (s, []))
    ∧ (∀ (s : SysState) (sub : Subscription) (v : Nat) (ts : Int) (s2 : SysState)
        (as : List EAction), s.are_new_messages_to_drop = true →
        on_checksum s sub v ts = .ok (s2, as) → s2.are_new_messages_to_drop = true)
    ∧ (∀ (s : SysState) (sub : Subscription) (snap : List TradingPairBook) (ts : Int),
        (on_t_book_snapshot s sub snap ts).are_new_messages_to_drop = false) := by
  refine ⟨fun s sub => rfl, ?_, ?_, fun s sub snap ts => rfl⟩
  · intro s sub d ts h
    simp [on_t_book_update, h]
  · intro s sub v ts s2 as h hok
    unfold on_checksum at hok
    by_cases hv : s.order_book.is_verifiable
    · rw [if_pos hv] at hok
      cases hver : s.order_book.verify v with
      | error e =>
        rw [hver] at hok
        simp at hok
      | ok b =>
        rw [hver] at hok
        cases b with
        | true =>
          simp only [Except.ok.injEq, Prod.mk.injEq] at hok
          rw [← hok.1]
          exact h
        | false =>
          simp only [Except.ok.injEq, Prod.mk.injEq] at hok
          rw [← hok.1]
          rfl
    · rw [if_neg hv] at hok
      simp only [Except.ok.injEq, Prod.mk.injEq] at hok
      rw [← hok.1]
      exact h

/-- C8 witness: on a state with the flag raised, a book update is a no-op
with no action; a mismatching checksum on a raised-flag state keeps the
flag raised. -/
theorem claimC8_witness :
    on_t_book_update exDropState exSub exLevel 3 = .ok (exDropState, [])
    ∧ ({ exDivState with are_new_messages_to_drop := true,
                         last_checksum_timestamp := 5 } :
        SysState).are_new_messages_to_drop = true :=
  ⟨claimC8_drop_flag.2.1 exDropState exSub exLevel 3 (by decide),
   claimC8_drop_flag.2.2.1 { exDivState with are_new_messages_to_drop := true } exSub
     3875865668 5
     { exDivState with are_new_messages_to_drop := true,
                       last_checksum_timestamp := 5 } [] (by decide) (by decide)⟩

/-- C2 counterexample: on a concrete state with a nonempty book and journal,
the reset trace shows the journal already cleared before the unsubscribe is
issued (point 2), and the Replica Store still holding the stale book both
immediately after the transition into the invalidated state (point 1) and
at the moment both transport calls have been issued (point 4) — the store
is cleared only after the subscribe, refuting the claimed
unsubscribe-clear-subscribe order and the claimed immediate emptiness. -/
theorem claimC2_counterexample :
    ((resetTrace exState exSub).getD 2 (exState, [])).1.timestamp_orderbook_update_map = []
    ∧ ((resetTrace exState exSub).getD 2 (exState, [])).2 = []
    ∧ ((resetTrace exState exSub).getD 4 (exState, [])).2 =
        [EAction.unsubscribe 7, EAction.subscribe exSub.params]
    ∧ ((resetTrace exState exSub).getD 4 (exState, [])).1.order_book ≠ OrderBook.emptyBook
    ∧ ((resetTrace exState exSub).getD 1 (exState, [])).1.are_new_messages_to_drop = true
    ∧ ((resetTrace exState exSub).getD 1 (exState, [])).1.order_book ≠ OrderBook.emptyBook := by
  exact ⟨by decide, by decide, by decide, by decide, by decide, by decide⟩

/-- C2 (amended): the resync procedure clears the Update Journal, then
issues exactly one unsubscribe, then exactly one subscribe with the same
channel parameters, and clears the Replica Store only after the subscribe;
on completion the store and journal are empty with the drop flag set, every
further book update is discarded, and the store is repopulated from empty
only by a fresh snapshot. -/
theorem claimC2_resync_sequence (s : SysState) (sub : Subscription) :
    (reset_connection s sub).2 =
      [EAction.unsubscribe sub.sub_id, EAction.subscribe sub.params]
    ∧ (reset_connection s sub).1.order_book = OrderBook.emptyBook
    ∧ (reset_connection s sub).1.timestamp_orderbook_update_map = []
    ∧ (reset_connection s sub).1.are_new_messages_to_drop = true
    ∧ ((resetTrace s sub).getD 2 (s, [])).1.timestamp_orderbook_update_map = []
    ∧ ((resetTrace s sub).getD 2 (s, [])).2 = []
    ∧ ((resetTrace s sub).getD 4 (s, [])).1.order_book = s.order_book
    ∧ ((resetTrace s sub).getD 4 (s, [])).2 =
        [EAction.unsubscribe sub.sub_id, EAction.subscribe sub.params]
    ∧ (∀ (d : TradingPairBook) (ts : Int),
        on_t_book_update (reset_connection s sub).1 sub d ts =
          .ok ((reset_connection s sub).1, []))
    ∧ ∀ (snap : List TradingPairBook) (ts : Int),
        (on_t_book_snapshot (reset_connection s sub).1 sub snap ts).order_book =
          snap.foldl OrderBook.update OrderBook.emptyBook := by
  refine ⟨rfl, rfl, rfl, rfl, rfl, rfl, rfl, rfl, ?_, ?_⟩
  · intro d ts
    simp [on_t_book_update, reset_connection_eq]
  · intro snap ts
    rfl

/-- C5 counterexample: a concrete checksum-mismatch run (verifiable book,
declared value 0) flushes the journal restricted to the last verified
timestamp, and that flushed map holds no entry under the sentinel key `-1`
— no final full-replica copy is stored on this window close, refuting the
claim for the divergence case. -/
theorem claimC5_counterexample :
    on_checksum exDivState exSub 0 1000 = .ok
      ({ exDivState with timestamp_orderbook_update_map := [],
                         order_book := OrderBook.emptyBook,
                         are_new_messages_to_drop := true },
       [EAction.saveFile 10 true [(10, JEntry.upd [pfNat 1] [pfNat 1] [1])],
        EAction.unsubscribe 7, EAction.subscribe exSub.params])
    ∧ odLookup (-1) [(10, JEntry.upd [pfNat 1] [pfNat 1] [1])] = (none : Option JEntry) := by
  exact ⟨by decide, by decide⟩

/-- C5 (amended): on window close by recording-timer expiry the journal
stores one final full-replica deep copy under the sentinel key `-1` before
the map is serialized and then cleared; on window close by checksum
divergence no sentinel entry is added — the serialized map is the journal
restricted to the last verified checksum timestamp and contains no sentinel
key (whenever the journal had none), and it is then cleared. -/
theorem claimC5_sentinel :
    (∀ (s : SysState) (sub : Subscription) (d : TradingPairBook) (ts : Int),
      s.are_new_messages_to_drop = false →
      odLookup ts s.timestamp_orderbook_update_map = none →
      s.ending_timestamp ≤ ts →
      ∃ J, on_t_book_update s sub d ts = .ok
          ({ s with order_book := OrderBook.emptyBook,
                    timestamp_orderbook_update_map := [],
                    are_new_messages_to_drop := true },
           [EAction.saveFile ts false J,
            EAction.unsubscribe sub.sub_id, EAction.subscribe sub.params])
        ∧ odLookup (-1) J = some (JEntry.bookCopy (s.order_book.update d)))
    ∧ (∀ (s : SysState) (sub : Subscription) (v : Nat) (ts : Int),
        s.order_book.is_verifiable = true →
        s.order_book.verify v = .ok false →
        odLookup (-1) s.timestamp_orderbook_update_map = none →
        ∃ J, on_checksum s sub v ts = .ok
            ({ s with timestamp_orderbook_update_map := [],
                      order_book := OrderBook.emptyBook,
                      are_new_messages_to_drop := true },
             [EAction.saveFile s.last_checksum_timestamp true J,
              EAction.unsubscribe sub.sub_id, EAction.subscribe sub.params])
          ∧ odLookup (-1) J = none) := by
  constructor
  · intro s sub d ts hdrop hfresh hend
    refine ⟨_, on_t_book_update_timer s sub d ts hdrop hfresh hend, ?_⟩
    exact odLookup_odInsert_self _ _ _
  · intro s sub v ts hver hfalse hnos
    refine ⟨_, on_checksum_mismatch s sub v ts hver hfalse, ?_⟩
    exact odLookup_filter_none _ _ _ hnos

/-- C5 witness: both window-close paths instantiated — a timer expiry whose
flushed map holds the sentinel deep copy, and a divergence whose flushed
map holds none. -/
theorem claimC5_witness :
    (∃ J, on_t_book_update exTimerState exSub exLevel 150 = .ok
        ({ exTimerState with order_book := OrderBook.emptyBook,
                             timestamp_orderbook_update_map := [],
                             are_new_messages_to_drop := true },
         [EAction.saveFile 150 false J,
          EAction.unsubscribe exSub.sub_id, EAction.subscribe exSub.params])
      ∧ odLookup (-1) J = some (JEntry.bookCopy (exTimerState.order_book.update exLevel)))
    ∧ (∃ J, on_checksum exDivState exSub 0 1000 = .ok
        ({ exDivState with timestamp_orderbook_update_map := [],
                           order_book := OrderBook.emptyBook,
                           are_new_messages_to_drop := true },
         [EAction.saveFile exDivState.last_checksum_timestamp true J,
          EAction.unsubscribe exSub.sub_id, EAction.subscribe exSub.params])
      ∧ odLookup (-1) J = none) :=
  ⟨claimC5_sentinel.1 exTimerState exSub exLevel 150 (by decide) (by decide) (by decide),
   claimC5_sentinel.2 exDivState exSub 0 1000 (by decide) (by decide) (by decide)⟩

/-- C6 counterexample: a window whose recording started at timestamp 0
closes on an update at timestamp 150, and the flush is filed under 150 —
the timestamp of the closing update, not the window's start — refuting
that every flush is named after the window's start timestamp. -/
theorem claimC6_counterexample :
    on_t_book_update exTimerState exSub exLevel 150 = .ok
      ({ exTimerState with order_book := OrderBook.emptyBook,
                           timestamp_orderbook_update_map := [],
                           are_new_messages_to_drop := true },
       [EAction.saveFile 150 false
          [(150, JEntry.upd [pfNat 1] [pfNat 1] [1]),
           (-1, JEntry.bookCopy ⟨[(pfNat 1, ⟨pfNat 1, 1, pfNat 1⟩)], []⟩)],
        EAction.unsubscribe 7, EAction.subscribe exSub.params])
    ∧ (150 : Int) ≠ exTimerState.starting_timestamp := by
  exact ⟨by decide, by decide⟩

/-- C6 (amended): every flush is named by a timestamp plus the
interrupted/normal flag, but not by the window's start timestamp: the
normal (timer-expiry) flush is named by the timestamp of the update that
closed the window with the flag normal, while the divergence flush is
named by the last known-good verified checksum timestamp with the flag
interrupted and its payload is the journal restricted to keys at most that
timestamp. -/
theorem claimC6_flush_naming :
    (∀ (s : SysState) (sub : Subscription) (d : TradingPairBook) (ts : Int),
      s.are_new_messages_to_drop = false →
      odLookup ts s.timestamp_orderbook_update_map = none →
      s.ending_timestamp ≤ ts →
      ∃ J, on_t_book_update s sub d ts = .ok
          ({ s with order_book := OrderBook.emptyBook,
                    timestamp_orderbook_update_map := [],
                    are_new_messages_to_drop := true },
           [EAction.saveFile ts false J,
            EAction.unsubscribe sub.sub_id, EAction.subscribe sub.params]))
    ∧ (∀ (s : SysState) (sub : Subscription) (v : Nat) (ts : Int),
        s.order_book.is_verifiable = true →
        s.order_book.verify v = .ok false →
        on_checksum s sub v ts = .ok
          ({ s with timestamp_orderbook_update_map := [],
                    order_book := OrderBook.emptyBook,
                    are_new_messages_to_drop := true },
           [EAction.saveFile s.last_checksum_timestamp true
              (s.timestamp_orderbook_update_map.filter
                fun kv => kv.1 ≤ s.last_checksum_timestamp),
            EAction.unsubscribe sub.sub_id, EAction.subscribe sub.params]))
    ∧ ∀ (j : List (Int × JEntry)) (t : Int),
        get_orderbook_updates_until j t = j.filter fun kv => kv.1 ≤ t := by
  refine ⟨?_, ?_, fun j t => rfl⟩
  · intro s sub d ts hdrop hfresh hend
    exact ⟨_, on_t_book_update_timer s sub d ts hdrop hfresh hend⟩
  · intro s sub v ts hver hfalse
    exact on_checksum_mismatch s sub v ts hver hfalse

/-- C6 witness: the timer flush of the example window is filed under the
closing update's timestamp 150 (normal), and the divergence flush of the
example state is filed under the last verified checksum timestamp 10
(interrupted) with the journal restricted to keys at most 10. -/
theorem claimC6_witness :
    (∃ J, on_t_book_update exTimerState exSub exLevel 150 = .ok
        ({ exTimerState with order_book := OrderBook.emptyBook,
                             timestamp_orderbook_update_map := [],
                             are_new_messages_to_drop := true },
         [EAction.saveFile 150 false J,
          EAction.unsubscribe exSub.sub_id, EAction.subscribe exSub.params]))
    ∧ on_checksum exDivState exSub 0 1000 = .ok
        ({ exDivState with timestamp_orderbook_update_map := [],
                           order_book := OrderBook.emptyBook,
                           are_new_messages_to_drop := true },
         [EAction.saveFile exDivState.last_checksum_timestamp true
            (exDivState.timestamp_orderbook_update_map.filter
              fun kv => kv.1 ≤ exDivState.last_checksum_timestamp),
          EAction.unsubscribe exSub.sub_id, EAction.subscribe exSub.params]) :=
  ⟨claimC6_flush_naming.1 exTimerState exSub exLevel 150 (by decide) (by decide) (by decide),
   claimC6_flush_naming.2.1 exDivState exSub 0 1000 (by decide) (by decide)⟩

/-- C7 counterexample: the value 1e-10 has decimal exponent below -6, yet
its formatted string `1e-10` carries a two-digit exponent — the replacement
only strips the padding zero of two-digit exponents such as `1e-07` —
refuting "scientific notation with a single-digit exponent" for every such
value. -/
theorem claimC7_counterexample :
    format_float (.nz false [1] (-10)) = some (['1'] ++ 'e' :: '-' :: ['1', '0'])
    ∧ (['1', '0'] : List Char).length ≠ 1 :=
  ⟨by decide, by decide⟩

/-- C7 (amended): a canonical value formats as plain fixed-point decimal
notation (no exponent marker) when its base-10 exponent is at least -6;
otherwise as scientific notation whose exponent field never has a leading
zero (`1e-7`, never `1e-07`), is a single digit exactly when the exponent
magnitude is at most 9, and keeps two or more digits from magnitude 10 on
(`1e-10`). -/
theorem claimC7_format (neg : Bool) (ds : List Nat) (e : Int)
    (h : PyFloat.Valid (.nz neg ds e)) :
    (-6 ≤ e →
      format_float (.nz neg ds e) = some (decimalFixed (.nz neg ds e))
      ∧ ∀ c ∈ decimalFixed (.nz neg ds e), c ≠ 'e')
    ∧ (e < -6 →
      format_float (.nz neg ds e) =
        some (sciMantissa neg ds ++ 'e' :: '-' :: trimExp e.natAbs)
      ∧ (trimExp e.natAbs).head? ≠ some '0'
      ∧ (-9 ≤ e → (trimExp e.natAbs).length = 1)
      ∧ (e < -9 → 2 ≤ (trimExp e.natAbs).length)) := by
  have hds : ∀ d ∈ ds, d < 10 := h.2.2.2.1
  constructor
  · intro he
    exact ⟨format_float_fixed neg ds e he, decimalFixed_ne_e neg ds e hds⟩
  · intro he
    have h7 : 7 ≤ e.natAbs := by omega
    obtain ⟨hhead, h1, h2, _⟩ := trimExp_facts e.natAbs h7
    refine ⟨format_float_sci neg ds e hds he, hhead, ?_, ?_⟩
    · intro h9
      apply h1
      omega
    · intro h9
      apply h2
      omega

/-- C7 witness: 1.5e-7 formats as `1.5e-7` with a nonzero single-digit
exponent, and 2.5 (exponent 0) formats in fixed-point with no exponent
marker. -/
theorem claimC7_witness :
    (format_float (.nz false [1, 5] (-7)) =
        some (sciMantissa false [1, 5] ++ 'e' :: '-' :: trimExp (Int.natAbs (-7)))
      ∧ (trimExp (Int.natAbs (-7))).head? ≠ some '0'
      ∧ (trimExp (Int.natAbs (-7))).length = 1)
    ∧ (format_float (.nz false [2, 5] 0) = some (decimalFixed (.nz false [2, 5] 0))
      ∧ ∀ c ∈ decimalFixed (.nz false [2, 5] 0), c ≠ 'e') := by
  have T1 := (claimC7_format false [1, 5] (-7) (by decide)).2 (by decide)
  have T2 := (claimC7_format false [2, 5] 0 (by decide)).1 (by decide)
  exact ⟨⟨T1.1, T1.2.1, T1.2.2.1 (by decide)⟩, T2⟩

/-- The modelled CRC-32 agrees with the standard zip/gzip check value on the
reference input `123456789`. -/
theorem crc32_zlib_check_value : crc32 ("123456789".data.map Char.toNat) = 0xCBF43926 := by
  decide
